import Mathlib

/-!
Verification of the list-integrity checker `verify.py` of the
disposable-email-domains repository.

The Python script loads two line lists (`allowlist.conf`, the allow list, and
`disposable_email_blocklist.conf`, the deny list) and runs a fixed battery of
checks, each of which calls `sys.exit(1)` as soon as it has printed its
violations.  The public-suffix classifier (`publicsuffixlist.PublicSuffixList`)
is an external dependency; it is modelled here as a structure of two oracles,
`publicsuffix` and `privateparts`, matching the two methods the script calls.
`publicsuffix d` is the longest public suffix matched by `d` under the loaded
dataset (`none` models Python `None`), and `privateparts d` is the tuple of
labels of `d` below its public suffix together with the private suffix, again
`none` for Python `None`.  The library returns `None` from `privateparts`
exactly when the domain has no label strictly below its public suffix (for
example the empty string, or a domain equal to its own public suffix).

Python strings are modelled as `String`, with the operations the script uses
re-implemented structurally over `List Char` so that every definition
evaluates by kernel reduction:
* `line.split('#')[0]`  -> `beforeHash`
* `.strip()`            -> `trimChars` (Python strips ASCII whitespace
                           ` \t\n\r\x0b\x0c`; the list files are ASCII)
* `.startswith("#")`    -> `startsWithHash`
* `.lower()`            -> `pyLower` (ASCII case mapping, as the regex and the
                           list files are ASCII)
* string comparison / `sorted()` -> code-point lexicographic order `lexLe`,
  which is exactly Python's `<=` on strings.
-/

namespace Verify

/-- Python `line.split('#')[0]`: the text of `s` before its first `'#'`
(all of `s` when there is none). -/
def beforeHash (s : String) : String :=
  String.mk (s.data.takeWhile (fun c => c ≠ '#'))

/-- Python whitespace for `str.strip()` on ASCII text. -/
def isSpaceChar (c : Char) : Bool :=
  c == ' ' || c == '\t' || c == '\n' || c == '\r' || c == '\x0b' || c == '\x0c'

/-- Strip leading and trailing whitespace from a character list. -/
def trimChars (cs : List Char) : List Char :=
  ((cs.dropWhile isSpaceChar).reverse.dropWhile isSpaceChar).reverse

/-- Python `line.split('#')[0].strip()`: the trimmed text of a raw line,
used by every check of `verify.py`. -/
def pyStrip (s : String) : String :=
  String.mk (trimChars (beforeHash s).data)

/-- Python `line.startswith("#")`. -/
def startsWithHash (s : String) : Bool :=
  match s.data with
  | '#' :: _ => true
  | _ => false

/-- The filter `not line.startswith("#") and line.split('#')[0].strip()`
applied by the duplicate, sort-order, intersection, case and format checks. -/
def keptLine (s : String) : Bool :=
  (!startsWithHash s) && (pyStrip s != "")

/-- The raw lines of a list that survive the comment filter. -/
def kept (lines : List String) : List String :=
  lines.filter keptLine

/-- The trimmed texts of the kept lines (the "non-comment trimmed entries"). -/
def strippedKept (lines : List String) : List String :=
  (kept lines).map pyStrip

/-- ASCII `str.lower()` on a character. -/
def lowerChar (c : Char) : Char :=
  if 65 ≤ c.toNat ∧ c.toNat ≤ 90 then Char.ofNat (c.toNat + 32) else c

/-- ASCII `str.lower()` on a string. -/
def pyLower (s : String) : String :=
  String.mk (s.data.map lowerChar)

/-- Code-point lexicographic `<=` on character lists: Python's string order. -/
def lexLe : List Char → List Char → Bool
  | [], _ => true
  | _ :: _, [] => false
  | a :: as, b :: bs =>
    if a.toNat < b.toNat then true
    else if b.toNat < a.toNat then false
    else lexLe as bs

/-- Python's `<=` on strings, as a proposition. -/
def pyLe (s t : String) : Prop := lexLe s.data t.data = true

instance : DecidableRel pyLe := fun a b =>
  inferInstanceAs (Decidable (lexLe a.data b.data = true))

/-- Python `sorted()` on a list of strings.  Under a total order any sorted
permutation is unique as a list (equal strings are identical), so stable
insertion sort models Python's sort exactly. -/
def pySort (l : List String) : List String :=
  List.insertionSort pyLe l

end Verify

namespace Verify

/-- The public-suffix classifier of the `publicsuffixlist` dependency, as the
two oracles `verify.py` calls on it. -/
structure PSL where
  publicsuffix : String → Option String
  privateparts : String → Option (List String)

/-- Model of `check_for_public_suffixes` (verify.py lines 28-48): iterate over the raw
lines of the deny list, skip lines whose trimmed text is empty, and flag the
trimmed text when the classifier's longest public suffix for it is the text
itself.  The script logs each flagged value and calls `sys.exit(1)` when at
least one was flagged; this function returns the flagged values in order. -/
def check_for_public_suffixes (psl : PSL) : List String → List String
  | [] => []
  | line :: rest =>
    let cur := pyStrip line
    let r := check_for_public_suffixes psl rest
    if cur = "" then r
    else if psl.publicsuffix cur = some cur then cur :: r
    else r

/-- One step of the set comprehension of `check_for_third_level_domains`
(verify.py lines 50-62).  Python evaluates
`len(psl.privateparts(line.split('#')[0].strip())) > 1` before the comment
filters, so a line whose trimmed text has no private parts (`None`) raises
`TypeError` — modelled as `Except.error ()` — for every line, comment or not. -/
def thirdLevelRaw (psl : PSL) : List String → Except Unit (List String)
  | [] => .ok []
  | line :: rest =>
    match psl.privateparts (pyStrip line) with
    | none => .error ()
    | some parts =>
      match thirdLevelRaw psl rest with
      | .error e => .error e
      | .ok acc =>
        .ok (if 1 < parts.length && keptLine line then pyStrip line :: acc else acc)

/-- Model of `check_for_third_level_domains`: the set of flagged trimmed texts, reported
sorted (Python builds a set and prints `sorted(invalid)`), or a `TypeError`
crash.  The script exits 1 when the set is non-empty. -/
def check_for_third_level_domains (psl : PSL) (lines : List String) :
    Except Unit (List String) :=
  (thirdLevelRaw psl lines).map (fun l => pySort l.dedup)

/-- Model of `check_for_non_lowercase` (verify.py lines 64-71): the sorted set of kept
trimmed texts that differ from their lowercase form. -/
def check_for_non_lowercase (lines : List String) : List String :=
  pySort (((strippedKept lines).filter (fun v => v != pyLower v)).dedup)

/-- Model of `check_for_duplicates` (verify.py lines 73-80):
`Counter(lines) - Counter(set(lines))` keeps exactly the values occurring at
least twice among the kept trimmed texts; the report iterates
`sorted(count)`, i.e. the sorted distinct duplicated values. -/
def check_for_duplicates (lines : List String) : List String :=
  let vals := strippedKept lines
  pySort ((vals.filter (fun v => decide (2 ≤ vals.count v))).dedup)

/-- The loop `for a, b in zip(lines, sorted(lines))` of `check_sort_order`:
the first position where the two lists differ, reported as
`(b, a)` — "`b` should come before `a`". -/
def firstMismatch : List String → List String → Option (String × String)
  | a :: as, b :: bs => if a = b then firstMismatch as bs else some (b, a)
  | _, _ => none

/-- Model of `check_sort_order` (verify.py lines 82-88).  Note that the kept lines are
compared **raw** (including any trailing comment and whitespace); the trimmed
text is only used inside the comment filter. -/
def check_sort_order (lines : List String) : Option (String × String) :=
  firstMismatch (kept lines) (pySort (kept lines))

/-- Model of `check_for_intersection` (verify.py lines 90-98): the sorted set of
trimmed texts kept in both lists; the script exits 1 when it is non-empty. -/
def check_for_intersection (la lb : List String) : List String :=
  let a := strippedKept la
  let b := strippedKept lb
  pySort ((a.filter (fun v => decide (v ∈ b))).dedup)

/-- Class `[a-zA-Z0-9]` of the domain regex. -/
def isAlnum (c : Char) : Bool :=
  (65 ≤ c.toNat && c.toNat ≤ 90) || (97 ≤ c.toNat && c.toNat ≤ 122) ||
    (48 ≤ c.toNat && c.toNat ≤ 57)

/-- Class `[a-zA-Z0-9-]` of the domain regex. -/
def isLabelChar (c : Char) : Bool := isAlnum c || c == '-'

/-- Class `[a-zA-Z]` of the domain regex. -/
def isAlphaChar (c : Char) : Bool :=
  (65 ≤ c.toNat && c.toNat ≤ 90) || (97 ≤ c.toNat && c.toNat ≤ 122)

/-- A label matching `[a-zA-Z0-9](?:[a-zA-Z0-9-]{0,61}[a-zA-Z0-9])?`:
length 1 to 63, every character alphanumeric or `-`, and the first and last
characters alphanumeric. -/
def labelOk (cs : List Char) : Bool :=
  1 ≤ cs.length && cs.length ≤ 63 && cs.all isLabelChar &&
    (match cs with | c :: _ => isAlnum c | [] => false) &&
    (match cs.getLast? with | some c => isAlnum c | none => false)

/-- A TLD matching `[a-zA-Z]{2,6}`. -/
def tldOk (cs : List Char) : Bool :=
  2 ≤ cs.length && cs.length ≤ 6 && cs.all isAlphaChar

/-- Split a character list at a separator character (Python `str.split`):
`splitChar '.' "a.b" = ["a","b"]`, with empty pieces kept. -/
def splitChar (sep : Char) : List Char → List (List Char)
  | [] => [[]]
  | c :: cs =>
    let r := splitChar sep cs
    if c = sep then [] :: r
    else
      match r with
      | [] => [[c]]
      | x :: xs => (c :: x) :: xs

/-- The anchored regex
`^(?:[a-zA-Z0-9](?:[a-zA-Z0-9-]{0,61}[a-zA-Z0-9])?\.)+[a-zA-Z]{2,6}$` of
`check_for_valid_domain_format`.  Since neither the label pattern nor the TLD
pattern can contain `'.'`, a string matches the regex exactly when its
dot-separated pieces are one or more matching labels followed by a matching
TLD; `splitChar '.'` recovers precisely those pieces. -/
def domainRegexMatch (s : String) : Bool :=
  let parts := splitChar '.' s.data
  2 ≤ parts.length && parts.dropLast.all labelOk &&
    (match parts.getLast? with | some t => tldOk t | none => false)

/-- Model of `check_for_valid_domain_format` (verify.py lines 100-112): the sorted set
of kept trimmed texts that do not match the domain regex. -/
def check_for_valid_domain_format (lines : List String) : List String :=
  pySort (((strippedKept lines).filter (fun v => !domainRegexMatch v)).dedup)

/-- The `__main__` block (verify.py lines 114-143): run the checks in their
fixed order, stopping with exit status 1 at the first check that exits (any
check whose violation set is non-empty, or a `TypeError` crash of the
domain-level check), and finishing with exit status 0 otherwise.  The second
component records which of the eleven check invocations ran:
1 `check_for_public_suffixes(blocklist)`, 2 `check_for_third_level_domains(blocklist)`,
3/4 `check_for_non_lowercase(allowlist/blocklist)`,
5/6 `check_for_duplicates(allowlist/blocklist)`,
7/8 `check_sort_order(allowlist/blocklist)`,
9 `check_for_intersection(allowlist, blocklist)`,
10/11 `check_for_valid_domain_format(allowlist/blocklist)`. -/
def mainRun (psl : PSL) (allow block : List String) : Nat × List Nat :=
  if check_for_public_suffixes psl block ≠ [] then (1, [1])
  else
    match check_for_third_level_domains psl block with
    | .error _ => (1, [1, 2])
    | .ok inv =>
      if inv ≠ [] then (1, [1, 2])
      else if check_for_non_lowercase allow ≠ [] then (1, [1, 2, 3])
      else if check_for_non_lowercase block ≠ [] then (1, [1, 2, 3, 4])
      else if check_for_duplicates allow ≠ [] then (1, [1, 2, 3, 4, 5])
      else if check_for_duplicates block ≠ [] then (1, [1, 2, 3, 4, 5, 6])
      else if (check_sort_order allow).isSome then (1, [1, 2, 3, 4, 5, 6, 7])
      else if (check_sort_order block).isSome then (1, [1, 2, 3, 4, 5, 6, 7, 8])
      else if check_for_intersection allow block ≠ [] then
        (1, [1, 2, 3, 4, 5, 6, 7, 8, 9])
      else if check_for_valid_domain_format allow ≠ [] then
        (1, [1, 2, 3, 4, 5, 6, 7, 8, 9, 10])
      else if check_for_valid_domain_format block ≠ [] then
        (1, [1, 2, 3, 4, 5, 6, 7, 8, 9, 10, 11])
      else (0, [1, 2, 3, 4, 5, 6, 7, 8, 9, 10, 11])

/-- Join labels back with `'.'` separators. -/
def joinDot (ls : List (List Char)) : List Char := List.intercalate ['.'] ls

/-- Model of `publicsuffixlist.PublicSuffixList` loaded with the single rule
`com` and the library default `accept_unknown = True`: for a well-formed
domain (non-empty, no empty label) the last label is its public suffix
(either by the `com` rule or as an accepted unknown TLD); `privateparts` is
the tuple of the labels above the private suffix followed by the private
suffix itself, and is `None` (here `none`) when no label lies strictly below
the public suffix — in particular for the empty string and for a domain that
is exactly a public suffix. -/
def pslCom : PSL where
  publicsuffix d :=
    let ls := splitChar '.' d.data
    if d.data = [] ∨ ls.any (fun l => l.isEmpty) then none
    else
      match ls.getLast? with
      | some last => some (String.mk last)
      | none => none
  privateparts d :=
    let ls := splitChar '.' d.data
    if d.data = [] ∨ ls.any (fun l => l.isEmpty) ∨ ls.length ≤ 1 then none
    else
      some ((ls.take (ls.length - 2)).map String.mk ++
        [String.mk (joinDot (ls.drop (ls.length - 2)))])

/-! ### The code-point order is a total order -/

theorem charEq_of_toNat_eq {a b : Char} (h : a.toNat = b.toNat) : a = b := by
  apply Char.ext
  apply UInt32.ext
  simpa [Char.toNat] using h

theorem lexLe_cons_of_lt {a b : Char} (as bs : List Char)
    (h : a.toNat < b.toNat) : lexLe (a :: as) (b :: bs) = true := by
  simp only [lexLe]
  rw [if_pos h]

theorem lexLe_cons_of_eq {a b : Char} {as bs : List Char}
    (h : a.toNat = b.toNat) (ht : lexLe as bs = true) :
    lexLe (a :: as) (b :: bs) = true := by
  simp only [lexLe]
  rw [if_neg (by omega), if_neg (by omega)]
  exact ht

theorem lexLe_cons_elim {a b : Char} {as bs : List Char}
    (h : lexLe (a :: as) (b :: bs) = true) :
    a.toNat < b.toNat ∨ (a.toNat = b.toNat ∧ lexLe as bs = true) := by
  simp only [lexLe] at h
  by_cases h1 : a.toNat < b.toNat
  · exact Or.inl h1
  · rw [if_neg h1] at h
    by_cases h2 : b.toNat < a.toNat
    · rw [if_pos h2] at h
      cases h
    · rw [if_neg h2] at h
      exact Or.inr ⟨by omega, h⟩

theorem lexLe_refl : ∀ cs : List Char, lexLe cs cs = true
  | [] => rfl
  | _ :: cs => lexLe_cons_of_eq rfl (lexLe_refl cs)

theorem lexLe_total : ∀ a b : List Char, lexLe a b = true ∨ lexLe b a = true
  | [], _ => Or.inl rfl
  | _ :: _, [] => Or.inr rfl
  | a :: as, b :: bs => by
    rcases Nat.lt_trichotomy a.toNat b.toNat with h | h | h
    · exact Or.inl (lexLe_cons_of_lt as bs h)
    · rcases lexLe_total as bs with ih | ih
      · exact Or.inl (lexLe_cons_of_eq h ih)
      · exact Or.inr (lexLe_cons_of_eq h.symm ih)
    · exact Or.inr (lexLe_cons_of_lt bs as h)

theorem lexLe_trans :
    ∀ a b c : List Char,
      lexLe a b = true → lexLe b c = true → lexLe a c = true
  | [], _, _, _, _ => rfl
  | _ :: _, [], _, hab, _ => by cases hab
  | _ :: _, _ :: _, [], _, hbc => by cases hbc
  | a :: as, b :: bs, c :: cs, hab, hbc => by
    rcases lexLe_cons_elim hab with h1 | ⟨h1, h1t⟩ <;>
      rcases lexLe_cons_elim hbc with h2 | ⟨h2, h2t⟩
    · exact lexLe_cons_of_lt as cs (by omega)
    · exact lexLe_cons_of_lt as cs (by omega)
    · exact lexLe_cons_of_lt as cs (by omega)
    · exact lexLe_cons_of_eq (by omega) (lexLe_trans as bs cs h1t h2t)

theorem lexLe_antisymm :
    ∀ a b : List Char, lexLe a b = true → lexLe b a = true → a = b
  | [], [], _, _ => rfl
  | [], _ :: _, _, hba => by cases hba
  | _ :: _, [], hab, _ => by cases hab
  | a :: as, b :: bs, hab, hba => by
    rcases lexLe_cons_elim hab with h1 | ⟨h1, h1t⟩ <;>
      rcases lexLe_cons_elim hba with h2 | ⟨h2, h2t⟩ <;>
      try omega
    rw [charEq_of_toNat_eq h1, lexLe_antisymm as bs h1t h2t]

theorem stringEq_of_data_eq {a b : String} (h : a.data = b.data) : a = b := by
  cases a
  cases b
  exact congrArg String.mk h

instance : IsTotal String pyLe := ⟨fun a b => lexLe_total a.data b.data⟩

instance : IsTrans String pyLe :=
  ⟨fun a b c hab hbc => lexLe_trans a.data b.data c.data hab hbc⟩

instance : IsAntisymm String pyLe :=
  ⟨fun a b hab hba => stringEq_of_data_eq (lexLe_antisymm a.data b.data hab hba)⟩

instance : IsRefl String pyLe := ⟨fun a => lexLe_refl a.data⟩

/-! ### Facts about `pySort` and `firstMismatch` -/

theorem pySort_perm (l : List String) : List.Perm (pySort l) l :=
  List.perm_insertionSort pyLe l

theorem pySort_sorted (l : List String) : List.Sorted pyLe (pySort l) :=
  List.sorted_insertionSort pyLe l

theorem mem_pySort {v : String} {l : List String} : v ∈ pySort l ↔ v ∈ l :=
  (pySort_perm l).mem_iff

theorem pySort_eq_self_iff {l : List String} :
    pySort l = l ↔ List.Sorted pyLe l := by
  constructor
  · intro h
    rw [← h]
    exact pySort_sorted l
  · exact fun h => h.insertionSort_eq

theorem firstMismatch_eq_none :
    ∀ {a b : List String}, a.length = b.length →
      (firstMismatch a b = none ↔ a = b)
  | [], [] => fun _ => by simp [firstMismatch]
  | [], _ :: _ => fun h => by cases h
  | _ :: _, [] => fun h => by cases h
  | a :: as, b :: bs => fun h => by
    simp only [firstMismatch]
    by_cases hab : a = b
    · rw [if_pos hab, firstMismatch_eq_none (by simpa using h)]
      subst hab
      simp
    · rw [if_neg hab]
      simp [hab]

theorem firstMismatch_some_spec :
    ∀ {l m : List String} {b a : String},
      firstMismatch l m = some (b, a) →
        ∃ n, l.take n = m.take n ∧ l.get? n = some a ∧
          m.get? n = some b ∧ a ≠ b
  | [], _, b, a => fun h => by cases h
  | _ :: _, [], b, a => fun h => by cases h
  | x :: xs, y :: ys, b, a => fun h => by
    simp only [firstMismatch] at h
    by_cases hxy : x = y
    · rw [if_pos hxy] at h
      obtain ⟨n, h1, h2, h3, h4⟩ := firstMismatch_some_spec h
      exact ⟨n + 1, by simp [hxy, h1], by simpa using h2, by simpa using h3, h4⟩
    · rw [if_neg hxy] at h
      cases h
      exact ⟨0, by simp, by simp, by simp, hxy⟩

/-! ### Membership characterizations of the checks -/

theorem mem_strippedKept {v : String} {lines : List String} :
    v ∈ strippedKept lines ↔
      ∃ line ∈ lines, keptLine line = true ∧ pyStrip line = v := by
  simp only [strippedKept, kept, List.mem_map, List.mem_filter]
  tauto

theorem mem_pySort_dedup {v : String} {l : List String} :
    v ∈ pySort l.dedup ↔ v ∈ l := by
  rw [mem_pySort, List.mem_dedup]

theorem nodup_pySort_dedup (l : List String) : (pySort l.dedup).Nodup :=
  (pySort_perm l.dedup).nodup_iff.mpr l.nodup_dedup

theorem pySort_dedup_ne_nil_iff {l : List String} :
    pySort l.dedup ≠ [] ↔ ∃ v, v ∈ l := by
  rw [Ne, List.eq_nil_iff_forall_not_mem]
  push_neg
  simp only [mem_pySort_dedup]

theorem mem_check_for_public_suffixes (psl : PSL) :
    ∀ {lines : List String} {v : String},
      v ∈ check_for_public_suffixes psl lines ↔
        ∃ line ∈ lines, pyStrip line = v ∧ v ≠ "" ∧
          psl.publicsuffix v = some v := by
  intro lines
  induction lines with
  | nil => simp [check_for_public_suffixes]
  | cons line rest ih =>
    intro v
    simp only [check_for_public_suffixes]
    by_cases h0 : pyStrip line = ""
    · rw [if_pos h0]
      simp only [ih, List.mem_cons]
      constructor
      · rintro ⟨l, hl, hrest⟩
        exact ⟨l, Or.inr hl, hrest⟩
      · rintro ⟨l, rfl | hl, h1, h2, h3⟩
        · rw [h1] at h0
          exact absurd h0 h2
        · exact ⟨l, hl, h1, h2, h3⟩
    · rw [if_neg h0]
      by_cases h1 : psl.publicsuffix (pyStrip line) = some (pyStrip line)
      · rw [if_pos h1]
        simp only [List.mem_cons, ih]
        constructor
        · rintro (rfl | ⟨l, hl, hrest⟩)
          · exact ⟨line, Or.inl rfl, rfl, h0, h1⟩
          · exact ⟨l, Or.inr hl, hrest⟩
        · rintro ⟨l, rfl | hl, hv, h2, h3⟩
          · exact Or.inl hv.symm
          · exact Or.inr ⟨l, hl, hv, h2, h3⟩
      · rw [if_neg h1]
        simp only [ih, List.mem_cons]
        constructor
        · rintro ⟨l, hl, hrest⟩
          exact ⟨l, Or.inr hl, hrest⟩
        · rintro ⟨l, rfl | hl, hv, h2, h3⟩
          · subst hv
            exact absurd h3 h1
          · exact ⟨l, hl, hv, h2, h3⟩

theorem thirdLevelRaw_isOk (psl : PSL) :
    ∀ {lines : List String},
      (∀ line ∈ lines, psl.privateparts (pyStrip line) ≠ none) →
        ∃ raw, thirdLevelRaw psl lines = .ok raw := by
  intro lines
  induction lines with
  | nil => exact fun _ => ⟨[], rfl⟩
  | cons line rest ih =>
    intro h
    simp only [thirdLevelRaw]
    rcases hp : psl.privateparts (pyStrip line) with _ | parts
    · exact absurd hp (h line (List.mem_cons_self line rest))
    · obtain ⟨raw, hraw⟩ := ih (fun l hl => h l (List.mem_cons_of_mem line hl))
      rw [hraw]
      exact ⟨_, rfl⟩

theorem thirdLevelRaw_mem (psl : PSL) :
    ∀ {lines raw : List String}, thirdLevelRaw psl lines = .ok raw →
      ∀ v, v ∈ raw ↔
        ∃ line ∈ lines, keptLine line = true ∧ pyStrip line = v ∧
          ∃ parts, psl.privateparts v = some parts ∧ 1 < parts.length := by
  intro lines
  induction lines with
  | nil =>
    intro raw h v
    cases h
    simp
  | cons line rest ih =>
    intro raw h v
    simp only [thirdLevelRaw] at h
    rcases hp : psl.privateparts (pyStrip line) with _ | parts <;> rw [hp] at h
    · cases h
    · rcases hr : thirdLevelRaw psl rest with e | acc <;> rw [hr] at h
      · cases h
      · cases h
        by_cases hc : 1 < parts.length ∧ keptLine line = true
        · rw [if_pos (by simp [hc.1, hc.2])]
          simp only [List.mem_cons, ih hr v]
          constructor
          · rintro (rfl | ⟨l, hl, hrest⟩)
            · exact ⟨line, Or.inl rfl, hc.2, rfl, parts, hp, hc.1⟩
            · exact ⟨l, Or.inr hl, hrest⟩
          · rintro ⟨l, rfl | hl, hk, hv, ps, hps, hlen⟩
            · exact Or.inl hv.symm
            · exact Or.inr ⟨l, hl, hk, hv, ps, hps, hlen⟩
        · rw [if_neg (by
            intro hb
            rw [Bool.and_eq_true, decide_eq_true_eq] at hb
            exact hc ⟨hb.1, hb.2⟩)]
          simp only [ih hr v, List.mem_cons]
          constructor
          · rintro ⟨l, hl, hrest⟩
            exact ⟨l, Or.inr hl, hrest⟩
          · rintro ⟨l, rfl | hl, hk, hv, ps, hps, hlen⟩
            · subst hv
              rw [hp] at hps
              cases hps
              exact absurd ⟨hlen, hk⟩ hc
            · exact ⟨l, hl, hk, hv, ps, hps, hlen⟩

theorem thirdLevelRaw_error (psl : PSL) :
    ∀ {lines : List String},
      thirdLevelRaw psl lines = .error () ↔
        ∃ line ∈ lines, psl.privateparts (pyStrip line) = none := by
  intro lines
  induction lines with
  | nil => simp [thirdLevelRaw]
  | cons line rest ih =>
    simp only [thirdLevelRaw]
    rcases hp : psl.privateparts (pyStrip line) with _ | parts
    · exact iff_of_true rfl ⟨line, List.mem_cons_self line rest, hp⟩
    · rcases hr : thirdLevelRaw psl rest with e | acc
      · cases e
        refine iff_of_true rfl ?_
        obtain ⟨l, hl, h⟩ := ih.mp hr
        exact ⟨l, List.mem_cons_of_mem line hl, h⟩
      · refine iff_of_false ?_ ?_
        · intro h
          cases h
        · rintro ⟨l, hl, h⟩
          rcases List.mem_cons.mp hl with rfl | hl'
          · rw [hp] at h
            cases h
          · have h2 := ih.mpr ⟨l, hl', h⟩
            rw [hr] at h2
            cases h2

/-! ### Behaviour of the `__main__` pipeline -/

/-- Check invocation `k` of the pipeline halts the run (non-empty violation
set, or — for the domain-level check — a `TypeError` crash). -/
def checkFailsAt (psl : PSL) (allow block : List String) : Nat → Prop
  | 1 => check_for_public_suffixes psl block ≠ []
  | 2 => check_for_third_level_domains psl block ≠ .ok []
  | 3 => check_for_non_lowercase allow ≠ []
  | 4 => check_for_non_lowercase block ≠ []
  | 5 => check_for_duplicates allow ≠ []
  | 6 => check_for_duplicates block ≠ []
  | 7 => check_sort_order allow ≠ none
  | 8 => check_sort_order block ≠ none
  | 9 => check_for_intersection allow block ≠ []
  | 10 => check_for_valid_domain_format allow ≠ []
  | 11 => check_for_valid_domain_format block ≠ []
  | _ => False

/-- The violations yielded (reported) by check invocation `k`: a check that
crashes with `TypeError` yields none.  The pair reported by the sort-order
check is rendered as its two strings. -/
def yieldedViolationsAt (psl : PSL) (allow block : List String) :
    Nat → List String
  | 1 => check_for_public_suffixes psl block
  | 2 =>
    match check_for_third_level_domains psl block with
    | .ok inv => inv
    | .error _ => []
  | 3 => check_for_non_lowercase allow
  | 4 => check_for_non_lowercase block
  | 5 => check_for_duplicates allow
  | 6 => check_for_duplicates block
  | 7 =>
    match check_sort_order allow with
    | some p => [p.1, p.2]
    | none => []
  | 8 =>
    match check_sort_order block with
    | some p => [p.1, p.2]
    | none => []
  | 9 => check_for_intersection allow block
  | 10 => check_for_valid_domain_format allow
  | 11 => check_for_valid_domain_format block
  | _ => []

theorem mainRun_all_pass (psl : PSL) (allow block : List String)
    (h1 : check_for_public_suffixes psl block = [])
    (h2 : check_for_third_level_domains psl block = .ok [])
    (h3 : check_for_non_lowercase allow = [])
    (h4 : check_for_non_lowercase block = [])
    (h5 : check_for_duplicates allow = [])
    (h6 : check_for_duplicates block = [])
    (h7 : check_sort_order allow = none)
    (h8 : check_sort_order block = none)
    (h9 : check_for_intersection allow block = [])
    (h10 : check_for_valid_domain_format allow = [])
    (h11 : check_for_valid_domain_format block = []) :
    mainRun psl allow block = (0, [1, 2, 3, 4, 5, 6, 7, 8, 9, 10, 11]) := by
  unfold mainRun
  simp [h1, h2, h3, h4, h5, h6, h7, h8, h9, h10, h11]

theorem mainRun_ps_fail (psl : PSL) (allow block : List String)
    (h : check_for_public_suffixes psl block ≠ []) :
    mainRun psl allow block = (1, [1]) := by
  unfold mainRun
  simp [h]

theorem mainRun_fst_one_of_inter (psl : PSL) (allow block : List String)
    (h9 : check_for_intersection allow block ≠ []) :
    (mainRun psl allow block).1 = 1 := by
  unfold mainRun
  by_cases h1 : check_for_public_suffixes psl block = []
  · rcases h2 : check_for_third_level_domains psl block with e | inv
    · simp [h1, h2]
    · by_cases h2i : inv = []
      · subst h2i
        by_cases h3 : check_for_non_lowercase allow = []
        · by_cases h4 : check_for_non_lowercase block = []
          · by_cases h5 : check_for_duplicates allow = []
            · by_cases h6 : check_for_duplicates block = []
              · by_cases h7 : check_sort_order allow = none
                · by_cases h8 : check_sort_order block = none
                  · simp [h1, h2, h3, h4, h5, h6, h7, h8, h9]
                  · simp [h1, h2, h3, h4, h5, h6, h7,
                      Option.isSome_iff_ne_none.mpr h8]
                · simp [h1, h2, h3, h4, h5, h6,
                    Option.isSome_iff_ne_none.mpr h7]
              · simp [h1, h2, h3, h4, h5, h6]
            · simp [h1, h2, h3, h4, h5]
          · simp [h1, h2, h3, h4]
        · simp [h1, h2, h3]
      · simp [h1, h2, h2i]
  · simp [h1]

/-! ### Spec-side definitions (the claims' vocabulary) -/

/-- The spec's `isExactPublicSuffix` (spec section 4.1), stated over the
classifier and a set of local-override strings: the domain equals its own
longest-matching public suffix under the dataset, or equals an override. -/
def specIsExactPublicSuffix (psl : PSL) (ovr : List String) (d : String) :
    Prop :=
  psl.publicsuffix d = some d ∨ d ∈ ovr

/-- The spec's `isValidUnderLocalSuffix` (spec section 4.1): some
label-aligned suffix of the domain is a local override and exactly one label
remains before that suffix. -/
def specValidUnderLocalSuffix (ovr : List String) (d : String) : Prop :=
  ∃ i, 0 < i ∧ i < (splitChar '.' d.data).length ∧
    String.mk (joinDot ((splitChar '.' d.data).drop i)) ∈ ovr ∧ i = 1

/-- The spec's combined "valid registrable domain" rule (spec sections 4.1
and 4.3 item 2): exactly one private part under the public dataset, or valid
under the local-suffix rule; always rejected when `isExactPublicSuffix`. -/
def specAcceptableDomain (psl : PSL) (ovr : List String) (d : String) :
    Prop :=
  ((∃ parts, psl.privateparts d = some parts ∧ parts.length = 1) ∨
      specValidUnderLocalSuffix ovr d) ∧
    ¬specIsExactPublicSuffix psl ovr d

/-- The claim's label grammar: 1-63 characters, alphanumeric with hyphens
allowed only internally (the first and last characters are alphanumeric). -/
def SpecLabel (cs : List Char) : Prop :=
  1 ≤ cs.length ∧ cs.length ≤ 63 ∧
    (∀ c ∈ cs, isAlnum c = true ∨ c = '-') ∧
    (∀ c ∈ cs.head?, isAlnum c = true) ∧
    (∀ c ∈ cs.getLast?, isAlnum c = true)

/-- The claim's TLD grammar: 2-6 alphabetic characters. -/
def SpecTld (cs : List Char) : Prop :=
  2 ≤ cs.length ∧ cs.length ≤ 6 ∧ ∀ c ∈ cs, isAlphaChar c = true

/-- The claim's generic domain-name grammar: one or more dot-separated
labels followed by a final TLD label. -/
def specDomainGrammar (s : String) : Prop :=
  ∃ ls t, splitChar '.' s.data = ls ++ [t] ∧ ls ≠ [] ∧
    (∀ l ∈ ls, SpecLabel l) ∧ SpecTld t

/-! ### The regex matcher agrees with the claim's grammar -/

theorem isLabelChar_iff {c : Char} :
    isLabelChar c = true ↔ (isAlnum c = true ∨ c = '-') := by
  simp [isLabelChar, Bool.or_eq_true, beq_iff_eq]

theorem labelOk_iff {cs : List Char} : labelOk cs = true ↔ SpecLabel cs := by
  cases cs with
  | nil => simp [labelOk, SpecLabel]
  | cons c rest =>
    obtain ⟨z, hz⟩ : ∃ z, (c :: rest).getLast? = some z := by
      cases h : (c :: rest).getLast? with
      | none => exact absurd (List.getLast?_eq_none_iff.mp h) (List.cons_ne_nil c rest)
      | some z => exact ⟨z, rfl⟩
    simp only [labelOk, SpecLabel, hz, Bool.and_eq_true, decide_eq_true_eq,
      List.all_eq_true, List.head?_cons, Option.mem_def, Option.some.injEq,
      isLabelChar_iff]
    constructor
    · rintro ⟨⟨⟨⟨hlen1, hlen2⟩, hall⟩, hhead⟩, hlast⟩
      refine ⟨hlen1, hlen2, hall, ?_, ?_⟩
      · intro x hx
        rw [← hx]
        exact hhead
      · intro x hx
        rw [← hx]
        exact hlast
    · rintro ⟨hlen1, hlen2, hall, hhead, hlast⟩
      exact ⟨⟨⟨⟨hlen1, hlen2⟩, hall⟩, hhead c rfl⟩, hlast z rfl⟩

theorem tldOk_iff {cs : List Char} : tldOk cs = true ↔ SpecTld cs := by
  simp [tldOk, SpecTld, Bool.and_eq_true, decide_eq_true_eq, List.all_eq_true,
    and_assoc]

theorem splitChar_ne_nil (sep : Char) : ∀ cs : List Char, splitChar sep cs ≠ []
  | [] => by simp [splitChar]
  | c :: cs => by
    simp only [splitChar]
    by_cases h : c = sep
    · rw [if_pos h]
      exact List.cons_ne_nil _ _
    · rw [if_neg h]
      rcases hr : splitChar sep cs with _ | ⟨x, xs⟩
      · exact List.cons_ne_nil _ _
      · exact List.cons_ne_nil _ _

theorem domainRegexMatch_iff {s : String} :
    domainRegexMatch s = true ↔ specDomainGrammar s := by
  unfold domainRegexMatch specDomainGrammar
  have hne : splitChar '.' s.data ≠ [] := splitChar_ne_nil '.' s.data
  simp only [Bool.and_eq_true, decide_eq_true_eq, List.all_eq_true]
  constructor
  · rintro ⟨⟨h2, hlab⟩, htld⟩
    rcases hl : (splitChar '.' s.data).getLast? with _ | t
    · rw [hl] at htld
      cases htld
    · rw [hl] at htld
      have hlast := List.getLast?_eq_getLast (splitChar '.' s.data) hne
      rw [hl] at hlast
      refine ⟨(splitChar '.' s.data).dropLast, t, ?_, ?_, ?_, tldOk_iff.mp htld⟩
      · conv_lhs => rw [← List.dropLast_append_getLast hne]
        rw [Option.some.inj hlast]
      · intro hd
        have hlen := List.length_dropLast (splitChar '.' s.data)
        rw [hd] at hlen
        simp only [List.length_nil] at hlen
        omega
      · intro l hlmem
        exact labelOk_iff.mp (hlab l hlmem)
  · rintro ⟨ls, t, hdec, hlsne, hlab, htld⟩
    have hlen : 1 ≤ ls.length := List.length_pos.mpr hlsne
    refine ⟨⟨?_, ?_⟩, ?_⟩
    · rw [hdec, List.length_append, List.length_singleton]
      omega
    · intro l hl
      rw [hdec, List.dropLast_concat] at hl
      exact labelOk_iff.mpr (hlab l hl)
    · rw [hdec, List.getLast?_concat]
      exact tldOk_iff.mpr htld

/-- A string with no dot splits into a single piece. -/
theorem splitChar_no_sep {sep : Char} :
    ∀ {cs : List Char}, sep ∉ cs → splitChar sep cs = [cs]
  | [] => fun _ => rfl
  | c :: cs => fun h => by
    simp only [splitChar]
    rw [if_neg (fun hc => h (by rw [← hc]; exact List.mem_cons_self c cs)),
      splitChar_no_sep (fun hm => h (List.mem_cons_of_mem c hm))]

/-! ### Adjacent transpositions (for the sort-order algebraic claim) -/

/-- Swap the entries at positions `i` and `i + 1`. -/
def swapAdj : List String → Nat → List String
  | [], _ => []
  | [a], _ => [a]
  | a :: b :: rest, 0 => b :: a :: rest
  | a :: rest, n + 1 => a :: swapAdj rest n

theorem swapAdj_perm : ∀ (l : List String) (i : Nat),
    List.Perm (swapAdj l i) l
  | [], _ => List.Perm.refl _
  | [a], i => by cases i <;> exact List.Perm.refl _
  | a :: b :: rest, 0 => List.Perm.swap a b rest
  | a :: b :: rest, n + 1 => (swapAdj_perm (b :: rest) n).cons a

theorem swapAdj_get? : ∀ (l : List String) (i : Nat), i + 1 < l.length →
    (swapAdj l i).get? i = l.get? (i + 1)
  | [], i, h => by simp at h
  | [a], i, h => by simp at h
  | _ :: _ :: _, 0, _ => rfl
  | a :: b :: rest, n + 1, h => by
    have h' : n + 1 < (b :: rest).length := by
      simp only [List.length_cons] at h ⊢
      omega
    show (a :: swapAdj (b :: rest) n).get? (n + 1) = (a :: b :: rest).get? (n + 2)
    rw [List.get?_cons_succ, List.get?_cons_succ]
    exact swapAdj_get? (b :: rest) n h'

/-! ## Claim C1 (public-suffix-exactness check) -/

/-- C1 counterexample: the claim says the deny-list public-suffix-exactness
check flags an entry iff `isExactPublicSuffix` holds of it, where the spec's
`isExactPublicSuffix` is also true of any local-override string.  But
`check_for_public_suffixes` in verify.py consults only the public-suffix
dataset and no override set: with overrides `["foo.example"]` the entry
`"foo.example"` (whose longest public suffix under the dataset is
`"example"`) satisfies `isExactPublicSuffix` yet is not flagged. -/
theorem c1_counterexample :
    specIsExactPublicSuffix pslCom ["foo.example"] "foo.example" ∧
      check_for_public_suffixes pslCom ["foo.example"] = [] := by
  constructor
  · exact Or.inr (List.mem_singleton.mpr rfl)
  · decide

/-- C1 (amended): for every entry of the deny list whose comment-stripped
trimmed text is non-empty, `check_for_public_suffixes` flags the text iff the
classifier's longest matching public suffix for it is the text itself (no
local-override set exists or is consulted); and when at least one entry is
flagged the run terminates immediately with exit status 1 after only this
check. -/
theorem c1_flags_iff : ∀ (psl : PSL) (allow lines : List String),
    (∀ v, v ∈ check_for_public_suffixes psl lines ↔
      ∃ line ∈ lines, pyStrip line = v ∧ v ≠ "" ∧
        psl.publicsuffix v = some v) ∧
    (check_for_public_suffixes psl lines ≠ [] →
      mainRun psl allow lines = (1, [1])) :=
  fun psl allow lines =>
    ⟨fun _ => mem_check_for_public_suffixes psl,
      fun h => mainRun_ps_fail psl allow lines h⟩

/-- C1 witness: the deny list `["com"]` is flagged (its trimmed text equals
its own public suffix) and the run exits with status 1. -/
theorem c1_witness : mainRun pslCom [] ["com"] = (1, [1]) :=
  (c1_flags_iff pslCom [] ["com"]).2 (by decide)

/-! ## Claim C2 (domain-level check) -/

/-- C2 counterexample: the claim's combined rule accepts `"a.foo.com"` when
the local overrides contain `"foo.com"` (a label-aligned suffix in the
overrides with exactly one label before it, and not an exact public suffix),
so the claimed iff predicts no flag; but `check_for_third_level_domains`
never consults overrides and flags it (its `privateparts` under the dataset
is `("a", "foo.com")`, of length 2). -/
theorem c2_counterexample :
    specAcceptableDomain pslCom ["foo.com"] "a.foo.com" ∧
      check_for_third_level_domains pslCom ["a.foo.com"] =
        .ok ["a.foo.com"] := by
  refine ⟨⟨Or.inr ⟨1, by decide, by decide, by decide, rfl⟩, ?_⟩, rfl⟩
  intro h
  unfold specIsExactPublicSuffix at h
  rcases h with h | h <;> exact absurd h (by decide)

/-- C2 (amended): provided the classifier's `privateparts` is defined on the
trimmed text of every line of the deny list (otherwise the check raises
`TypeError` instead of producing violations), `check_for_third_level_domains`
flags a non-comment entry iff its `privateparts` tuple under the public
dataset has more than one element; no local-override escape exists. -/
theorem c2_flags_iff : ∀ (psl : PSL) (lines : List String),
    (∀ line ∈ lines, psl.privateparts (pyStrip line) ≠ none) →
    ∃ inv, check_for_third_level_domains psl lines = .ok inv ∧
      ∀ v, v ∈ inv ↔
        ∃ line ∈ lines, keptLine line = true ∧ pyStrip line = v ∧
          ∃ parts, psl.privateparts v = some parts ∧ 1 < parts.length := by
  intro psl lines h
  obtain ⟨raw, hraw⟩ := thirdLevelRaw_isOk psl h
  refine ⟨pySort raw.dedup, ?_, ?_⟩
  · unfold check_for_third_level_domains
    rw [hraw]
    rfl
  · intro v
    rw [mem_pySort_dedup]
    exact thirdLevelRaw_mem psl hraw v

/-- C2 witness: on the deny list `["a.foo.com"]` (where `privateparts` is
defined on every line) the check runs without crashing and flags exactly the
entries with more than one private part. -/
theorem c2_witness :
    ∃ inv, check_for_third_level_domains pslCom ["a.foo.com"] = .ok inv ∧
      ∀ v, v ∈ inv ↔
        ∃ line ∈ ["a.foo.com"], keptLine line = true ∧ pyStrip line = v ∧
          ∃ parts, pslCom.privateparts v = some parts ∧ 1 < parts.length :=
  c2_flags_iff pslCom ["a.foo.com"] (by decide)

/-! ## Claim C3 (sort-order check) -/

/-- C3 counterexample: the claim says a violation is reported iff the
sequence of non-comment **trimmed** entries is not non-decreasing.  But
`check_sort_order` compares the kept **raw** lines: for
`["b.com # x", "b.com"]` the trimmed sequence `["b.com", "b.com"]` is
non-decreasing, yet the check reports the pair
`("b.com", "b.com # x")`. -/
theorem c3_counterexample :
    List.Sorted pyLe (strippedKept ["b.com # x", "b.com"]) ∧
      check_sort_order ["b.com # x", "b.com"] =
        some ("b.com", "b.com # x") := by
  constructor
  · decide
  · decide

/-- C3 (amended): for each list, `check_sort_order` reports a violation iff
the sequence of kept **raw** lines (full line text, including any trailing
comment and whitespace) is not non-decreasing in code-point order; the
reported pair `(b, a)` is taken from the first position at which the kept
sequence differs from its sorted permutation, `a` being the out-of-place
kept line there and `b` the sorted sequence's element there. -/
theorem c3_sort_raw : ∀ lines : List String,
    (check_sort_order lines = none ↔ List.Sorted pyLe (kept lines)) ∧
    (∀ b a, check_sort_order lines = some (b, a) →
      ∃ n, (kept lines).take n = (pySort (kept lines)).take n ∧
        (kept lines).get? n = some a ∧
        (pySort (kept lines)).get? n = some b ∧ a ≠ b) := by
  intro lines
  constructor
  · unfold check_sort_order
    rw [firstMismatch_eq_none (pySort_perm (kept lines)).length_eq.symm]
    constructor
    · intro h
      rw [h]
      exact pySort_sorted (kept lines)
    · intro h
      exact (pySort_eq_self_iff.mpr h).symm
  · intro b a h
    exact firstMismatch_some_spec h

/-- C3 witness: on `["b.com", "a.com"]` the check reports
`("a.com", "b.com")`, which sits at the first mismatch position. -/
theorem c3_witness :
    ∃ n, (kept ["b.com", "a.com"]).take n =
        (pySort (kept ["b.com", "a.com"])).take n ∧
      (kept ["b.com", "a.com"]).get? n = some "b.com" ∧
      (pySort (kept ["b.com", "a.com"])).get? n = some "a.com" ∧
      "b.com" ≠ "a.com" :=
  (c3_sort_raw ["b.com", "a.com"]).2 "a.com" "b.com" (by decide)

/-! ## Claim C4 (pipeline order, fail-fast, exit codes) -/

/-- C4 counterexample: the claim says that when every check yields no
violation the run reports success and exits with status 0.  On the deny list
`["# c", "a.com"]` no check yields any violation (the domain-level check
crashes with `TypeError` before producing any), yet the run exits with
status 1. -/
theorem c4_counterexample :
    (∀ k, k < 12 → yieldedViolationsAt pslCom [] ["# c", "a.com"] k = []) ∧
      (mainRun pslCom [] ["# c", "a.com"]).1 = 1 := by
  constructor
  · decide
  · decide

/-- C4 (amended): the checks run in the fixed order 1-11 (public-suffix
exactness on deny; domain-level on deny; case on allow, deny; duplicates on
allow, deny; sort-order on allow, deny; intersection; domain-syntax on
allow, deny).  The run halts with exit status 1 at the first check that
halts — yields a violation, or, for the domain-level check, raises
`TypeError` — and no later check runs; when no check halts, every check runs
and the run exits with status 0. -/
theorem c4_pipeline : ∀ (psl : PSL) (allow block : List String),
    ((∀ k, 1 ≤ k → k ≤ 11 → ¬checkFailsAt psl allow block k) →
      mainRun psl allow block = (0, [1, 2, 3, 4, 5, 6, 7, 8, 9, 10, 11])) ∧
    (∀ k, 1 ≤ k → k ≤ 11 → checkFailsAt psl allow block k →
      (∀ j, 1 ≤ j → j < k → ¬checkFailsAt psl allow block j) →
      mainRun psl allow block = (1, List.range' 1 k)) := by
  intro psl allow block
  constructor
  · intro h
    exact mainRun_all_pass psl allow block
      (not_ne_iff.mp (h 1 (by omega) (by omega)))
      (not_ne_iff.mp (h 2 (by omega) (by omega)))
      (not_ne_iff.mp (h 3 (by omega) (by omega)))
      (not_ne_iff.mp (h 4 (by omega) (by omega)))
      (not_ne_iff.mp (h 5 (by omega) (by omega)))
      (not_ne_iff.mp (h 6 (by omega) (by omega)))
      (not_ne_iff.mp (h 7 (by omega) (by omega)))
      (not_ne_iff.mp (h 8 (by omega) (by omega)))
      (not_ne_iff.mp (h 9 (by omega) (by omega)))
      (not_ne_iff.mp (h 10 (by omega) (by omega)))
      (not_ne_iff.mp (h 11 (by omega) (by omega)))
  · intro k hk1 hk2 hf hprev
    interval_cases k
    · exact mainRun_ps_fail psl allow block hf
    · have h1 := not_ne_iff.mp (hprev 1 (by omega) (by omega))
      show mainRun psl allow block = (1, [1, 2])
      rcases h2 : check_for_third_level_domains psl block with e | inv
      · unfold mainRun
        simp [h1, h2]
      · have hi : inv ≠ [] := fun hh => hf (by rw [h2, hh])
        unfold mainRun
        simp [h1, h2, hi]
    · have h1 := not_ne_iff.mp (hprev 1 (by omega) (by omega))
      have h2 := not_ne_iff.mp (hprev 2 (by omega) (by omega))
      have hf' : check_for_non_lowercase allow ≠ [] := hf
      show mainRun psl allow block = (1, [1, 2, 3])
      unfold mainRun
      simp [h1, h2, hf']
    · have h1 := not_ne_iff.mp (hprev 1 (by omega) (by omega))
      have h2 := not_ne_iff.mp (hprev 2 (by omega) (by omega))
      have h3 := not_ne_iff.mp (hprev 3 (by omega) (by omega))
      have hf' : check_for_non_lowercase block ≠ [] := hf
      show mainRun psl allow block = (1, [1, 2, 3, 4])
      unfold mainRun
      simp [h1, h2, h3, hf']
    · have h1 := not_ne_iff.mp (hprev 1 (by omega) (by omega))
      have h2 := not_ne_iff.mp (hprev 2 (by omega) (by omega))
      have h3 := not_ne_iff.mp (hprev 3 (by omega) (by omega))
      have h4 := not_ne_iff.mp (hprev 4 (by omega) (by omega))
      have hf' : check_for_duplicates allow ≠ [] := hf
      show mainRun psl allow block = (1, [1, 2, 3, 4, 5])
      unfold mainRun
      simp [h1, h2, h3, h4, hf']
    · have h1 := not_ne_iff.mp (hprev 1 (by omega) (by omega))
      have h2 := not_ne_iff.mp (hprev 2 (by omega) (by omega))
      have h3 := not_ne_iff.mp (hprev 3 (by omega) (by omega))
      have h4 := not_ne_iff.mp (hprev 4 (by omega) (by omega))
      have h5 := not_ne_iff.mp (hprev 5 (by omega) (by omega))
      have hf' : check_for_duplicates block ≠ [] := hf
      show mainRun psl allow block = (1, [1, 2, 3, 4, 5, 6])
      unfold mainRun
      simp [h1, h2, h3, h4, h5, hf']
    · have h1 := not_ne_iff.mp (hprev 1 (by omega) (by omega))
      have h2 := not_ne_iff.mp (hprev 2 (by omega) (by omega))
      have h3 := not_ne_iff.mp (hprev 3 (by omega) (by omega))
      have h4 := not_ne_iff.mp (hprev 4 (by omega) (by omega))
      have h5 := not_ne_iff.mp (hprev 5 (by omega) (by omega))
      have h6 := not_ne_iff.mp (hprev 6 (by omega) (by omega))
      have hf' : check_sort_order allow ≠ none := hf
      show mainRun psl allow block = (1, [1, 2, 3, 4, 5, 6, 7])
      unfold mainRun
      simp [h1, h2, h3, h4, h5, h6, Option.isSome_iff_ne_none.mpr hf']
    · have h1 := not_ne_iff.mp (hprev 1 (by omega) (by omega))
      have h2 := not_ne_iff.mp (hprev 2 (by omega) (by omega))
      have h3 := not_ne_iff.mp (hprev 3 (by omega) (by omega))
      have h4 := not_ne_iff.mp (hprev 4 (by omega) (by omega))
      have h5 := not_ne_iff.mp (hprev 5 (by omega) (by omega))
      have h6 := not_ne_iff.mp (hprev 6 (by omega) (by omega))
      have h7 := not_ne_iff.mp (hprev 7 (by omega) (by omega))
      have hf' : check_sort_order block ≠ none := hf
      show mainRun psl allow block = (1, [1, 2, 3, 4, 5, 6, 7, 8])
      unfold mainRun
      simp [h1, h2, h3, h4, h5, h6, h7, Option.isSome_iff_ne_none.mpr hf']
    · have h1 := not_ne_iff.mp (hprev 1 (by omega) (by omega))
      have h2 := not_ne_iff.mp (hprev 2 (by omega) (by omega))
      have h3 := not_ne_iff.mp (hprev 3 (by omega) (by omega))
      have h4 := not_ne_iff.mp (hprev 4 (by omega) (by omega))
      have h5 := not_ne_iff.mp (hprev 5 (by omega) (by omega))
      have h6 := not_ne_iff.mp (hprev 6 (by omega) (by omega))
      have h7 := not_ne_iff.mp (hprev 7 (by omega) (by omega))
      have h8 := not_ne_iff.mp (hprev 8 (by omega) (by omega))
      have hf' : check_for_intersection allow block ≠ [] := hf
      show mainRun psl allow block = (1, [1, 2, 3, 4, 5, 6, 7, 8, 9])
      unfold mainRun
      simp [h1, h2, h3, h4, h5, h6, h7, h8, hf']
    · have h1 := not_ne_iff.mp (hprev 1 (by omega) (by omega))
      have h2 := not_ne_iff.mp (hprev 2 (by omega) (by omega))
      have h3 := not_ne_iff.mp (hprev 3 (by omega) (by omega))
      have h4 := not_ne_iff.mp (hprev 4 (by omega) (by omega))
      have h5 := not_ne_iff.mp (hprev 5 (by omega) (by omega))
      have h6 := not_ne_iff.mp (hprev 6 (by omega) (by omega))
      have h7 := not_ne_iff.mp (hprev 7 (by omega) (by omega))
      have h8 := not_ne_iff.mp (hprev 8 (by omega) (by omega))
      have h9 := not_ne_iff.mp (hprev 9 (by omega) (by omega))
      have hf' : check_for_valid_domain_format allow ≠ [] := hf
      show mainRun psl allow block = (1, [1, 2, 3, 4, 5, 6, 7, 8, 9, 10])
      unfold mainRun
      simp [h1, h2, h3, h4, h5, h6, h7, h8, h9, hf']
    · have h1 := not_ne_iff.mp (hprev 1 (by omega) (by omega))
      have h2 := not_ne_iff.mp (hprev 2 (by omega) (by omega))
      have h3 := not_ne_iff.mp (hprev 3 (by omega) (by omega))
      have h4 := not_ne_iff.mp (hprev 4 (by omega) (by omega))
      have h5 := not_ne_iff.mp (hprev 5 (by omega) (by omega))
      have h6 := not_ne_iff.mp (hprev 6 (by omega) (by omega))
      have h7 := not_ne_iff.mp (hprev 7 (by omega) (by omega))
      have h8 := not_ne_iff.mp (hprev 8 (by omega) (by omega))
      have h9 := not_ne_iff.mp (hprev 9 (by omega) (by omega))
      have h10 := not_ne_iff.mp (hprev 10 (by omega) (by omega))
      have hf' : check_for_valid_domain_format block ≠ [] := hf
      show mainRun psl allow block = (1, [1, 2, 3, 4, 5, 6, 7, 8, 9, 10, 11])
      unfold mainRun
      simp [h1, h2, h3, h4, h5, h6, h7, h8, h9, h10, hf']

/-- C4 witness: on allow `[]`, deny `["a.com"]` no check halts and the run
executes all eleven check invocations and exits with status 0. -/
theorem c4_witness :
    mainRun pslCom [] ["a.com"] = (0, [1, 2, 3, 4, 5, 6, 7, 8, 9, 10, 11]) :=
  (c4_pipeline pslCom [] ["a.com"]).1 (by
    intro k h1 h2
    interval_cases k <;> exact fun h => h rfl)

/-! ## Claim C5 (cross-list intersection check) -/

/-- C5: `check_for_intersection` cites a value iff it occurs among the
non-comment trimmed texts of both lists; it produces a violation iff those
two sets are non-disjoint; and whenever it produces a violation the run
terminates with exit status 1. -/
theorem c5_intersection : ∀ (psl : PSL) (la lb : List String),
    (∀ v, v ∈ check_for_intersection la lb ↔
      v ∈ strippedKept la ∧ v ∈ strippedKept lb) ∧
    (check_for_intersection la lb ≠ [] ↔
      ∃ v, v ∈ strippedKept la ∧ v ∈ strippedKept lb) ∧
    (check_for_intersection la lb ≠ [] → (mainRun psl la lb).1 = 1) := by
  intro psl la lb
  have hmem : ∀ v, v ∈ check_for_intersection la lb ↔
      v ∈ strippedKept la ∧ v ∈ strippedKept lb := by
    intro v
    unfold check_for_intersection
    rw [mem_pySort_dedup, List.mem_filter]
    simp only [decide_eq_true_eq]
  refine ⟨hmem, ?_, mainRun_fst_one_of_inter psl la lb⟩
  rw [Ne, List.eq_nil_iff_forall_not_mem]
  push_neg
  simp only [hmem]

/-- C5 witness: allow `["good.com"]` and deny `["good.com"]` share
`"good.com"`, and the run exits with status 1. -/
theorem c5_witness : (mainRun pslCom ["good.com"] ["good.com"]).1 = 1 :=
  (c5_intersection pslCom ["good.com"] ["good.com"]).2.2 (by decide)

/-! ## Claim C6 (duplicate check) -/

/-- C6: `check_for_duplicates` reports a value iff it occurs at least twice
among the list's non-comment trimmed texts; it fails (non-empty report) iff
some value occurs more than once; its report has no duplicates, so each
distinct duplicated value produces exactly one violation; and on
`["a.com", "a.com", "b.com"]` the report is exactly `["a.com"]`. -/
theorem c6_duplicates :
    (∀ (lines : List String) (v : String),
      v ∈ check_for_duplicates lines ↔
        v ∈ strippedKept lines ∧ 2 ≤ (strippedKept lines).count v) ∧
    (∀ lines : List String, check_for_duplicates lines ≠ [] ↔
      ∃ v, 2 ≤ (strippedKept lines).count v) ∧
    (∀ lines : List String, (check_for_duplicates lines).Nodup) ∧
    check_for_duplicates ["a.com", "a.com", "b.com"] = ["a.com"] := by
  have hmem : ∀ (lines : List String) (v : String),
      v ∈ check_for_duplicates lines ↔
        v ∈ strippedKept lines ∧ 2 ≤ (strippedKept lines).count v := by
    intro lines v
    simp only [check_for_duplicates]
    rw [mem_pySort_dedup, List.mem_filter]
    simp only [decide_eq_true_eq]
  refine ⟨hmem, ?_, ?_, by decide⟩
  · intro lines
    rw [Ne, List.eq_nil_iff_forall_not_mem]
    push_neg
    simp only [hmem]
    constructor
    · rintro ⟨v, _, h⟩
      exact ⟨v, h⟩
    · rintro ⟨v, h⟩
      refine ⟨v, ?_, h⟩
      have hpos : 0 < (strippedKept lines).count v := by omega
      exact List.count_pos_iff.mp hpos
  · intro lines
    exact nodup_pySort_dedup _

/-! ## Claim C7 (domain-syntax check) -/

/-- C7: `check_for_valid_domain_format` flags a non-comment trimmed entry iff
it does not satisfy the generic domain-name grammar (one or more dot-separated
labels of 1-63 alphanumeric-or-internal-hyphen characters, followed by a final
TLD label of 2-6 alphabetic characters), and the check fails iff some
non-comment entry violates that grammar. -/
theorem c7_format : ∀ lines : List String,
    (∀ v, v ∈ check_for_valid_domain_format lines ↔
      v ∈ strippedKept lines ∧ ¬specDomainGrammar v) ∧
    (check_for_valid_domain_format lines ≠ [] ↔
      ∃ v ∈ strippedKept lines, ¬specDomainGrammar v) := by
  intro lines
  have hmem : ∀ v, v ∈ check_for_valid_domain_format lines ↔
      v ∈ strippedKept lines ∧ ¬specDomainGrammar v := by
    intro v
    unfold check_for_valid_domain_format
    rw [mem_pySort_dedup, List.mem_filter]
    simp [← domainRegexMatch_iff]
  refine ⟨hmem, ?_⟩
  rw [Ne, List.eq_nil_iff_forall_not_mem]
  push_neg
  simp only [hmem]

/-! ## Claim C8 (comment and blank lines) -/

/-- C8 (code bug): a line whose comment-stripped trimmed text is empty should
be ignored by every check, but `check_for_third_level_domains` evaluates
`len(psl.privateparts(line.split('#')[0].strip()))` before its comment
filters; `privateparts("")` is `None`, so `len(None)` raises `TypeError`.
Concretely: the deny list `["a.com"]` passes the whole pipeline with exit
status 0, while inserting the comment line `"# comment"` crashes the
domain-level check and the run exits with status 1 — although every other
check is unaffected by the inserted comment line. -/
theorem c8_comment_crash :
    check_for_third_level_domains pslCom ["a.com"] = .ok [] ∧
      check_for_third_level_domains pslCom ["# comment", "a.com"] =
        .error () ∧
      mainRun pslCom [] ["a.com"] = (0, [1, 2, 3, 4, 5, 6, 7, 8, 9, 10, 11]) ∧
      (mainRun pslCom [] ["# comment", "a.com"]).1 = 1 ∧
      check_for_public_suffixes pslCom ["# comment", "a.com"] =
        check_for_public_suffixes pslCom ["a.com"] ∧
      check_for_non_lowercase ["# comment", "a.com"] =
        check_for_non_lowercase ["a.com"] ∧
      check_for_duplicates ["# comment", "a.com"] =
        check_for_duplicates ["a.com"] ∧
      check_sort_order ["# comment", "a.com"] = check_sort_order ["a.com"] ∧
      check_for_valid_domain_format ["# comment", "a.com"] =
        check_for_valid_domain_format ["a.com"] := by
  refine ⟨rfl, rfl, by decide, rfl, rfl, rfl, rfl, rfl, rfl⟩

/-! ## Claim C9 (sort-order check, algebraic properties) -/

/-- C9: running the sort-order check on a list whose kept entries are already
non-decreasing yields no violation; and for any sorted duplicate-free list of
kept entries, swapping two adjacent entries makes the check report exactly
one violation (the check reports at most one pair by construction). -/
theorem c9_sort_swap :
    (∀ lines : List String,
      List.Sorted pyLe (kept lines) → check_sort_order lines = none) ∧
    (∀ (l : List String) (i : Nat),
      List.Sorted pyLe l → l.Nodup → (∀ x ∈ l, keptLine x = true) →
      i + 1 < l.length →
      ∃ p, check_sort_order (swapAdj l i) = some p) := by
  constructor
  · intro lines h
    unfold check_sort_order
    rw [pySort_eq_self_iff.mpr h]
    exact (firstMismatch_eq_none rfl).mpr rfl
  · intro l i hs hnd hall hi
    have hii : i < l.length := by omega
    have hperm := swapAdj_perm l i
    have hkept : kept (swapAdj l i) = swapAdj l i :=
      List.filter_eq_self.mpr (fun x hx => hall x (hperm.mem_iff.mp hx))
    have hsorteq : pySort (swapAdj l i) = l :=
      List.eq_of_perm_of_sorted ((pySort_perm _).trans hperm)
        (pySort_sorted _) hs
    have hne : swapAdj l i ≠ l := by
      intro he
      have h1 : (swapAdj l i).get? i = l.get? (i + 1) := swapAdj_get? l i hi
      rw [he, List.get?_eq_get hii, List.get?_eq_get hi] at h1
      have h3 := (List.Nodup.get_inj_iff hnd).mp (Option.some.inj h1)
      simp only [Fin.mk.injEq] at h3
      omega
    unfold check_sort_order
    rw [hkept, hsorteq]
    cases ho : firstMismatch (swapAdj l i) l with
    | none => exact absurd ((firstMismatch_eq_none hperm.length_eq).mp ho) hne
    | some p => exact ⟨p, rfl⟩

/-- C9 witness: swapping the first two entries of the sorted list
`["a.com", "b.com", "c.com"]` makes the check report a violation. -/
theorem c9_witness :
    ∃ p, check_sort_order (swapAdj ["a.com", "b.com", "c.com"] 0) = some p :=
  c9_sort_swap.2 ["a.com", "b.com", "c.com"] 0 (by decide) (by decide)
    (by decide) (by decide)

/-! ## Claim C10 (bare labels always fail the syntax check) -/

/-- C10: every kept entry whose trimmed text contains no dot (a single bare
label such as `"com"`) is flagged by the domain-syntax check: the regex
requires at least one label before the TLD, so a one-label string cannot
match. -/
theorem c10_bare_label_invalid : ∀ (lines : List String) (line : String),
    line ∈ lines → keptLine line = true → '.' ∉ (pyStrip line).data →
    pyStrip line ∈ check_for_valid_domain_format lines := by
  intro lines line hmem hk hdot
  unfold check_for_valid_domain_format
  rw [mem_pySort_dedup, List.mem_filter]
  refine ⟨mem_strippedKept.mpr ⟨line, hmem, hk, rfl⟩, ?_⟩
  have hfalse : domainRegexMatch (pyStrip line) = false := by
    unfold domainRegexMatch
    rw [splitChar_no_sep hdot]
    rfl
  rw [hfalse]
  rfl

/-- C10 witness: the deny list `["com"]` has its sole entry flagged by the
domain-syntax check. -/
theorem c10_witness : pyStrip "com" ∈ check_for_valid_domain_format ["com"] :=
  c10_bare_label_invalid ["com"] "com" (by decide) (by decide) (by decide)

end Verify
